import Mathlib

/-!
Verification of the contract PDF-extraction service (`src/app.py`).

The embedding models:
* `extract_text_from_pdf` / `extractPages` — the page loop of
  `extract_text_from_pdf` (src/app.py lines 38-69): per-page OCR decision
  (`len(page_text.strip()) < 50`), page separators, fail-fast on OCR error.
* `process_core` / `process_contract` — the POST handler `process_contract`
  (src/app.py lines 78-215): payload extraction with source priority,
  missing-id rejection, webhook status-hint skip, store lookup, stored-status
  skip, storage-path check, extraction, and the success write.
* Effects (download performed, OCR attempts, store write) are threaded
  explicitly in `RunResult` so frame conditions can be stated.

Two parts of the repository described by the spec are not present in
`src/app.py` (the repository has a second near-duplicate variant that is not
in `src/`): the bounded OCR retry wrapper and the TextNormalizer. Those are
modelled from the spec, each marked `Modelled from the spec:` in its doc
comment.
-/

namespace App

/-- A PDF page as the pipeline sees it: `native` is the natively extracted
text layer (`page.get_text()`), `ocr` is the result of rendering the page and
running `pytesseract.image_to_string` on it, with `none` modelling the OCR
call raising an exception. -/
structure Page where
  native : String
  ocr : Option String
deriving Repr, DecidableEq

/-- Python `str.strip()`: remove whitespace from both ends, modelled over
the character list. -/
def strip (s : String) : String :=
  { data := ((s.data.dropWhile Char.isWhitespace).reverse.dropWhile
      Char.isWhitespace).reverse }

/-- src/app.py line 53: `if len(page_text.strip()) < 50` classifies a page as
likely scanned, i.e. needing OCR. -/
def needsOcr (p : Page) : Bool := (strip p.native).length < 50

/-- Number of OCR invocations the page loop performs for one page:
one when the page is classified needs-OCR, zero otherwise (the code at
src/app.py line 58 calls `pytesseract.image_to_string` exactly once,
with no retry loop around it). -/
def pageOcrAttempts (p : Page) : Nat := if needsOcr p then 1 else 0

/-- The per-page separator written before a page's resolved text
(src/app.py lines 59 and 61). -/
def pageHeader (i : Nat) (p : Page) : String :=
  if needsOcr p then "\n--- Page " ++ toString (i + 1) ++ " (OCR) ---\n"
  else "\n--- Page " ++ toString (i + 1) ++ " ---\n"

/-- The text the loop appends for a page after the separator: the OCR result
when the page is classified needs-OCR, the native text otherwise. -/
def resolvedText (p : Page) : String :=
  if needsOcr p then p.ocr.getD "" else p.native

/-- The page loop of `extract_text_from_pdf` (src/app.py lines 49-61),
starting at page index `i`: per page, classify, on needs-OCR use the OCR
result (an OCR exception aborts the whole document, propagated by the
`raise` at line 69), otherwise use the native text; accumulate in order. -/
def extractPages : Nat → List Page → Except String String
  | _, [] => .ok ""
  | i, p :: rest =>
    if needsOcr p then
      match p.ocr with
      | none => .error ("OCR failed on page " ++ toString (i + 1))
      | some t =>
        match extractPages (i + 1) rest with
        | .error e => .error e
        | .ok r => .ok (pageHeader i p ++ t ++ r)
    else
      match extractPages (i + 1) rest with
      | .error e => .error e
      | .ok r => .ok (pageHeader i p ++ p.native ++ r)

/-- Reference form of the accumulated artifact: the in-order concatenation of
`pageHeader i p ++ resolvedText p` for pages `i, i+1, ...`. -/
def concatBlocks : Nat → List Page → String
  | _, [] => ""
  | i, p :: rest => pageHeader i p ++ resolvedText p ++ concatBlocks (i + 1) rest

/-- OCR invocations performed over a whole document: the loop stops at the
first page whose OCR raises. -/
def docOcrAttempts : List Page → Nat
  | [] => 0
  | p :: rest =>
    if needsOcr p then
      match p.ocr with
      | none => 1
      | some _ => 1 + docOcrAttempts rest
    else docOcrAttempts rest

/-- `extract_text_from_pdf` (src/app.py lines 38-69): the document is the
result of downloading and opening the PDF (`requests.get` + `fitz.open`),
with `.error` modelling a download/open failure; then the page loop runs. -/
def extract_text_from_pdf (doc : Except String (List Page)) : Except String String :=
  match doc with
  | .error e => .error e
  | .ok pages => extractPages 0 pages

/-- One payload source of the webhook (JSON body, form data or query
parameters): each is a string map, read with `.get`, so a missing key is
`none`. -/
structure Payload where
  contract_id : Option String := none
  upload_status : Option String := none
deriving Repr, DecidableEq

/-- The webhook data gathered at src/app.py lines 86-101. A source that is
absent or an empty mapping is `none` (Python truthiness of the dict). -/
structure WebhookData where
  json_body : Option Payload := none
  form_data : Option Payload := none
  query_params : Option Payload := none
deriving Repr, DecidableEq

/-- Python truthiness of an optional string: `None` and `""` are falsy. -/
def truthyS : Option String → Bool
  | none => false
  | some s => s ≠ ""

/-- The source-priority extraction of `contract_id` and `upload_status`
(src/app.py lines 112-128): JSON body first; form data consulted only when
the contract id so far is falsy (overwriting both fields); query parameters
likewise. -/
def extract_ids (wd : WebhookData) : Option String × Option String :=
  let p0 : Option String × Option String :=
    match wd.json_body with
    | some j => (j.contract_id, j.upload_status)
    | none => (none, none)
  let p1 : Option String × Option String :=
    if truthyS p0.1 then p0
    else
      match wd.form_data with
      | some f => (f.contract_id, f.upload_status)
      | none => p0
  if truthyS p1.1 then p1
  else
    match wd.query_params with
    | some q => (q.contract_id, q.upload_status)
    | none => p1

/-- A row of the `contracts` table, with the fields the handler reads and
writes. -/
structure Contract where
  id : String
  storage_path : Option String := none
  upload_status : Option String := none
  raw_text : Option String := none
  processed_at : Option String := none
deriving Repr, DecidableEq

/-- The outcome the handler returns (the JSON response, abstracted):
`badRequestNoId` is the 400 at line 134, `skippedHint` the 200 at line 143,
`notFound` the 404 at line 155, `skippedDb` the 200 at line 170,
`badRequestNoPath` the 400 at line 179, `error` the 500 at line 211,
`completed` the 200 at line 200. -/
inductive Outcome where
  | badRequestNoId
  | skippedHint (hint : String)
  | notFound
  | skippedDb (dbStatus : Option String)
  | badRequestNoPath
  | error (msg : String)
  | completed (text : String)
deriving Repr, DecidableEq

/-- The update written to the contract row (src/app.py lines 190-194). -/
structure UpdateData where
  raw_text : String
  upload_status : String
  processed_at : String
deriving Repr, DecidableEq

/-- Result of one run of the handler: the outcome, plus the effects the run
performed — whether the PDF was downloaded, how many OCR invocations were
made, and the store write (if any). -/
structure RunResult where
  outcome : Outcome
  downloaded : Bool
  ocrAttempts : Nat
  write : Option UpdateData
deriving Repr, DecidableEq

/-- Outcomes reported with `success: true` (HTTP 200). -/
def isSuccess : Outcome → Bool
  | .skippedHint _ => true
  | .skippedDb _ => true
  | .completed _ => true
  | _ => false

/-- Skip outcomes (successful no-ops). -/
def isSkip : Outcome → Bool
  | .skippedHint _ => true
  | .skippedDb _ => true
  | _ => false

/-- The tail of the POST handler once the contract row has been fetched
(src/app.py lines 161-207):
* `if db_upload_status != 'processing'` → stored-status skip (line 168);
* `if not storage_path` → 400 (line 177; empty string is falsy);
* `extract_text_from_pdf(storage_path)` — download then page loop; an
  exception (download or OCR) reaches the handler's `except` (line 209)
  which returns 500 and performs no store write;
* on success, write `raw_text`, `upload_status = 'completed'`,
  `processed_at` (lines 190-197) and return 200. -/
def process_found (contract : Contract)
    (fetch : String → Except String (List Page)) (now : String) : RunResult :=
  if contract.upload_status ≠ some "processing" then
    ⟨.skippedDb contract.upload_status, false, 0, none⟩
  else
    match contract.storage_path with
    | none => ⟨.badRequestNoPath, false, 0, none⟩
    | some sp =>
      if sp = "" then ⟨.badRequestNoPath, false, 0, none⟩
      else
        match fetch sp with
        | .error e => ⟨.error e, true, 0, none⟩
        | .ok pages =>
          match extractPages 0 pages with
          | .error e => ⟨.error e, true, docOcrAttempts pages, none⟩
          | .ok text =>
            ⟨.completed text, true, docOcrAttempts pages,
              some ⟨text, "completed", now⟩⟩

/-- The body of the POST handler after payload extraction
(src/app.py lines 132-159), as a function of the extracted `contract_id`
and `upload_status`:
* `if not contract_id` → 400 (line 132; `None` and the empty string are
  falsy);
* `if upload_status and upload_status != "processing"` → hint skip
  (line 141), before the store is consulted;
* store lookup `.eq('id', contract_id)` (line 151; `contract_id.getD ""` is
  the id string, the falsy case having already returned), empty result →
  404 (line 153); otherwise continue with the first returned row. -/
def process_core (contract_id upload_status : Option String)
    (contracts : List Contract) (fetch : String → Except String (List Page))
    (now : String) : RunResult :=
  if truthyS contract_id = false then ⟨.badRequestNoId, false, 0, none⟩
  else if truthyS upload_status = true ∧ upload_status ≠ some "processing" then
    ⟨.skippedHint (upload_status.getD ""), false, 0, none⟩
  else
    match contracts.filter (fun c => c.id == contract_id.getD "") with
    | [] => ⟨.notFound, false, 0, none⟩
    | contract :: _ => process_found contract fetch now

/-- The full POST handler `process_contract` (src/app.py lines 78-215):
extract the ids from the webhook data, then run the core. -/
def process_contract (wd : WebhookData) (contracts : List Contract)
    (fetch : String → Except String (List Page)) (now : String) : RunResult :=
  process_core (extract_ids wd).1 (extract_ids wd).2 contracts fetch now

/-- Applying the supabase update (src/app.py line 197) to a contract row. -/
def applyUpdate (u : UpdateData) (c : Contract) : Contract :=
  { c with raw_text := some u.raw_text, upload_status := some u.upload_status,
           processed_at := some u.processed_at }

/-- The contract row after the run: unchanged when the run wrote nothing. -/
def recordAfter (r : RunResult) (c : Contract) : Contract :=
  match r.write with
  | none => c
  | some u => applyUpdate u c

/-- The spec's data-model invariant: `raw_text` is non-null iff
`upload_status ∈ {completed, failed}`. -/
def invariant (c : Contract) : Prop :=
  c.raw_text ≠ none ↔
    (c.upload_status = some "completed" ∨ c.upload_status = some "failed")

/-- Concrete input for C3: an admitted contract (id present, hint
`"processing"`, stored status `"processing"`, storage path present) whose
download fails. -/
def c3_wd : WebhookData :=
  { json_body := some { contract_id := some "c1", upload_status := some "processing" } }

def c3_contracts : List Contract :=
  [{ id := "c1", storage_path := some "path", upload_status := some "processing" }]

def c3_fetch : String → Except String (List Page) := fun _ => .error "download failed"

/-- Modelled from the spec: the result of the bounded-retry policy wrapping
OcrFallback (spec §4.3) — the recovered text or final error, the number of
OCR attempts made, and the delays slept between consecutive attempts. The
retry wrapper is not in `src/app.py` (which calls
`pytesseract.image_to_string` once, directly); it belongs to the
repository's second near-duplicate variant, which is not under `src/`. -/
structure RetryResult where
  result : Except String String
  attempts : Nat
  delays : List Nat
deriving Repr

/-- Modelled from the spec: "at most 2 total attempts, with a fixed
inter-attempt delay (1 time unit); any exception/error on the final attempt
propagates to the caller" (spec §4.3). `attempt n` is the outcome of the
(n+1)-st OCR attempt on the page, `none` modelling the attempt raising. -/
def ocr_with_retry (attempt : Nat → Option String) : RetryResult :=
  match attempt 0 with
  | some t => ⟨.ok t, 1, []⟩
  | none =>
    match attempt 1 with
    | some t => ⟨.ok t, 2, [1]⟩
    | none => ⟨.error "OCR failed after 2 attempts", 2, [1]⟩

/-- A page under the retried pipeline: the native text and the per-attempt
OCR outcomes. -/
structure RPage where
  native : String
  attempt : Nat → Option String

def needsOcrR (p : RPage) : Bool := (strip p.native).length < 50

/-- Modelled from the spec: the page loop with OCR routed through the
bounded-retry policy; a page whose retry is exhausted aborts the whole
document (spec §4.3, §4.5). -/
def extractPagesR : Nat → List RPage → Except String String
  | _, [] => .ok ""
  | i, p :: rest =>
    if needsOcrR p then
      match (ocr_with_retry p.attempt).result with
      | .error e => .error e
      | .ok t =>
        match extractPagesR (i + 1) rest with
        | .error e => .error e
        | .ok r => .ok ("\n--- Page " ++ toString (i + 1) ++ " (OCR) ---\n" ++ t ++ r)
    else
      match extractPagesR (i + 1) rest with
      | .error e => .error e
      | .ok r => .ok ("\n--- Page " ++ toString (i + 1) ++ " ---\n" ++ p.native ++ r)

def c4_page : RPage := ⟨"x", fun _ => none⟩

/-- Horizontal whitespace: space or tab. -/
def hsp (c : Char) : Bool := c == ' ' || c == '\t'

/-- Modelled from the spec: TextNormalizer newline collapsing — "collapse
runs of 3+ newlines to a double newline" (spec §4.4). The TextNormalizer
component is not in `src/app.py`; it belongs to the repository's second
near-duplicate variant, which is not under `src/`. Any maximal run of three
or more newlines is reduced to exactly two. -/
def cnl : List Char → List Char
  | [] => []
  | [a] => [a]
  | [a, b] => [a, b]
  | a :: b :: c :: rest =>
    if a == '\n' && b == '\n' && c == '\n' then cnl (b :: c :: rest)
    else a :: cnl (b :: c :: rest)

/-- Fuelled worker for `chs`; the fuel (an upper bound on the list length,
consumed one unit per step) keeps the recursion structural. -/
def chsF : Nat → List Char → List Char
  | 0, l => l
  | _ + 1, [] => []
  | _ + 1, [a] => [a]
  | n + 1, a :: b :: rest =>
    if hsp a && hsp b then chsF n (' ' :: rest)
    else a :: chsF n (b :: rest)

/-- Modelled from the spec: TextNormalizer horizontal-whitespace collapsing —
"collapse runs of 2+ horizontal whitespace to a single space" (spec §4.4).
Any maximal run of two or more spaces/tabs is reduced to a single space. -/
def chs (l : List Char) : List Char := chsF l.length l

/-- Modelled from the spec: the TextNormalizer whitespace collapsing over a
character list (newline runs first, then horizontal runs). -/
def normalize_ws (l : List Char) : List Char := chs (cnl l)

/-- Modelled from the spec: TextNormalizer whitespace collapsing on the
accumulated text. -/
def normalize_text (s : String) : String := { data := normalize_ws s.data }

/-- No run of three or more newlines occurs. -/
def noTriple : List Char → Bool
  | a :: b :: c :: rest =>
    !(a == '\n' && b == '\n' && c == '\n') && noTriple (b :: c :: rest)
  | _ => true

/-- No run of two or more horizontal whitespace characters occurs. -/
def noDouble : List Char → Bool
  | a :: b :: rest => !(hsp a && hsp b) && noDouble (b :: rest)
  | _ => true

/-- Modelled from the spec: the pipeline's final artifact with the
TextNormalizer applied to the accumulated page text (spec §4.4, §4.5). -/
def final_artifact (doc : Except String (List Page)) : Except String String :=
  match extract_text_from_pdf doc with
  | .error e => .error e
  | .ok t => .ok (normalize_text t)

/-- First-window check for `noTriple`: the window formed by `a` and the
first two characters of `m` is not three newlines. -/
def ok2 (a : Char) : List Char → Bool
  | x :: y :: _ => !(a == '\n' && x == '\n' && y == '\n')
  | _ => true

/-- First-window check for `noDouble`: `a` and the first character of `m`
are not both horizontal whitespace. -/
def okd (a : Char) : List Char → Bool
  | x :: _ => !(hsp a && hsp x)
  | _ => true

def c8_doc : Except String (List Page) :=
  .ok [⟨"aaaaaaaaaaaaaaaaaaaaaaaaaaaaaaaaaaaaaaaaaaaaaaaaaa", none⟩]

def c8_t : String :=
  "\n--- Page 1 ---\naaaaaaaaaaaaaaaaaaaaaaaaaaaaaaaaaaaaaaaaaaaaaaaaaa"

/-- Concrete two-page document for the C1 witness: a native-sufficient page
(50 characters) followed by a scanned page resolved by OCR. -/
def c1_pages : List Page :=
  [⟨"aaaaaaaaaaaaaaaaaaaaaaaaaaaaaaaaaaaaaaaaaaaaaaaaaa", none⟩,
   ⟨"short", some "OCRTEXT"⟩]

def c2_wd : WebhookData := { json_body := some { contract_id := some "c1" } }

def c2_contract : Contract :=
  { id := "c1", storage_path := some "p", upload_status := some "completed" }

def c2_fetch : String → Except String (List Page) := fun _ => .error "never"

def c5_pages : List Page :=
  [⟨"x", some "OCR1"⟩,
   ⟨"bbbbbbbbbbbbbbbbbbbbbbbbbbbbbbbbbbbbbbbbbbbbbbbbbb", none⟩]

def c6_wd : WebhookData :=
  { json_body := some { contract_id := some "k1", upload_status := some "completed" } }

def c6_contract : Contract :=
  { id := "k1", storage_path := some "p", upload_status := some "processing" }

def c6_fetch : String → Except String (List Page) := fun _ => .error "never"

def c7_wd_noid : WebhookData := ⟨none, none, none⟩

def c7_wd_unknown : WebhookData :=
  { json_body := some { contract_id := some "z1" } }

def c7_fetch : String → Except String (List Page) := fun _ => .error "never"

def c9_wd : WebhookData :=
  { json_body := some { contract_id := some "c1", upload_status := some "processing" } }

def c9_contract : Contract :=
  { id := "c1", storage_path := some "p", upload_status := some "processing" }

def c9_fetch : String → Except String (List Page) :=
  fun _ => .ok [⟨"cccccccccccccccccccccccccccccccccccccccccccccccccc", none⟩]

def c10_wd : WebhookData :=
  { json_body := some { contract_id := some "m1", upload_status := some "" } }

def c10_wd2 : WebhookData :=
  { json_body := some { contract_id := some "m1" } }

def c10_contract : Contract := { id := "m1", upload_status := some "done" }

def c10_fetch : String → Except String (List Page) := fun _ => .ok []

theorem string_append_assoc (a b c : String) : a ++ b ++ c = a ++ (b ++ c) :=
  congrArg String.mk (List.append_assoc a.data b.data c.data)

theorem string_empty_append (s : String) : "" ++ s = s :=
  congrArg String.mk (List.nil_append s.data)

theorem extractPages_ok_eq :
    ∀ (ps : List Page) (i : Nat) (t : String),
      extractPages i ps = .ok t → t = concatBlocks i ps := by
  intro ps
  induction ps with
  | nil =>
    intro i t h
    simp only [extractPages] at h
    cases h
    rfl
  | cons p rest ih =>
    intro i t h
    simp only [extractPages] at h
    by_cases hc : needsOcr p = true
    · rw [if_pos hc] at h
      cases hocr : p.ocr with
      | none => rw [hocr] at h; cases h
      | some u =>
        rw [hocr] at h
        cases hrec : extractPages (i + 1) rest with
        | error e => rw [hrec] at h; cases h
        | ok r =>
          rw [hrec] at h
          cases h
          simp only [concatBlocks, resolvedText, hc, if_true, hocr, Option.getD]
          rw [ih (i + 1) r hrec]
    · rw [if_neg hc] at h
      cases hrec : extractPages (i + 1) rest with
      | error e => rw [hrec] at h; cases h
      | ok r =>
        rw [hrec] at h
        cases h
        simp only [concatBlocks, resolvedText, hc, Bool.false_eq_true, if_false]
        rw [ih (i + 1) r hrec]

theorem concatBlocks_contains :
    ∀ (ps : List Page) (i k : Nat) (h : i < ps.length),
      ∃ pre post, concatBlocks k ps =
        pre ++ (pageHeader (k + i) (ps.get ⟨i, h⟩) ++
          resolvedText (ps.get ⟨i, h⟩)) ++ post := by
  intro ps
  induction ps with
  | nil => intro i k h; exact absurd h (by simp)
  | cons p rest ih =>
    intro i k h
    cases i with
    | zero =>
      refine ⟨"", concatBlocks (k + 1) rest, ?_⟩
      simp only [concatBlocks, List.get, Nat.add_zero, string_empty_append,
        string_append_assoc]
    | succ j =>
      have hj : j < rest.length := by simpa using Nat.lt_of_succ_lt_succ h
      obtain ⟨pre, post, hp⟩ := ih j (k + 1) hj
      refine ⟨pageHeader k p ++ resolvedText p ++ pre, post, ?_⟩
      have hidx : k + 1 + j = k + (j + 1) := by omega
      simp only [concatBlocks, List.get]
      rw [hp, hidx]
      simp only [string_append_assoc]

/-- C1: for every page of a successfully extracted document, a page whose
trimmed native text is shorter than 50 characters has OCR invoked for it
(once) and its OCR text appears in the artifact; a page with at least 50
trimmed characters has OCR never invoked and its native text appears. -/
theorem C1_ocr_threshold (pages : List Page) (t : String)
    (h : extractPages 0 pages = .ok t) (i : Nat) (hi : i < pages.length) :
    ((strip (pages.get ⟨i, hi⟩).native).length < 50 →
      pageOcrAttempts (pages.get ⟨i, hi⟩) = 1 ∧
      ∃ pre post, t = pre ++ ((pages.get ⟨i, hi⟩).ocr.getD "") ++ post) ∧
    (50 ≤ (strip (pages.get ⟨i, hi⟩).native).length →
      pageOcrAttempts (pages.get ⟨i, hi⟩) = 0 ∧
      ∃ pre post, t = pre ++ (pages.get ⟨i, hi⟩).native ++ post) := by
  have ht : t = concatBlocks 0 pages := extractPages_ok_eq pages 0 t h
  obtain ⟨pre, post, hp⟩ := concatBlocks_contains pages i 0 hi
  rw [Nat.zero_add] at hp
  set p := pages.get ⟨i, hi⟩ with hpdef
  constructor
  · intro hlt
    have hc : needsOcr p = true := by
      simp only [needsOcr]
      exact decide_eq_true hlt
    refine ⟨by simp [pageOcrAttempts, hc], pre ++ pageHeader i p, post, ?_⟩
    rw [ht, hp]
    simp only [resolvedText, hc, if_true, string_append_assoc]
  · intro hge
    have hc : needsOcr p = false := by
      simp only [needsOcr]
      simp [Nat.not_lt.mpr hge]
    refine ⟨by simp [pageOcrAttempts, hc], pre ++ pageHeader i p, post, ?_⟩
    rw [ht, hp]
    simp only [resolvedText, hc, Bool.false_eq_true, if_false, string_append_assoc]

/-- C5: a successfully extracted artifact is exactly the concatenation of the
per-page blocks (separator plus resolved text) in ascending page index:
`concatBlocks` recurses over the page list in order, emitting page `i`
before page `i + 1`. -/
theorem C5_ascending_order (pages : List Page) (t : String)
    (h : extractPages 0 pages = .ok t) :
    t = concatBlocks 0 pages :=
  extractPages_ok_eq pages 0 t h

theorem process_contract_eq_core (wd : WebhookData) (cs : List Contract)
    (fetch : String → Except String (List Page)) (now : String)
    (cid us : Option String) (hids : extract_ids wd = (cid, us)) :
    process_contract wd cs fetch now = process_core cid us cs fetch now := by
  unfold process_contract
  rw [hids]

theorem process_core_bad_id (cid us : Option String) (cs : List Contract)
    (fetch : String → Except String (List Page)) (now : String)
    (htr : truthyS cid = false) :
    process_core cid us cs fetch now = ⟨.badRequestNoId, false, 0, none⟩ := by
  unfold process_core
  rw [if_pos htr]

theorem process_core_skip_hint (cid : String) (us : Option String)
    (cs : List Contract) (fetch : String → Except String (List Page))
    (now : String) (hcid : cid ≠ "")
    (hhint : truthyS us = true ∧ us ≠ some "processing") :
    process_core (some cid) us cs fetch now =
      ⟨.skippedHint (us.getD ""), false, 0, none⟩ := by
  unfold process_core
  rw [if_neg (by simp [truthyS, hcid]), if_pos hhint]

theorem process_core_not_found (cid : String) (us : Option String)
    (cs : List Contract) (fetch : String → Except String (List Page))
    (now : String) (hcid : cid ≠ "")
    (hhint : ¬(truthyS us = true ∧ us ≠ some "processing"))
    (hfil : cs.filter (fun c => c.id == cid) = []) :
    process_core (some cid) us cs fetch now = ⟨.notFound, false, 0, none⟩ := by
  unfold process_core
  rw [if_neg (by simp [truthyS, hcid]), if_neg hhint]
  simp only [Option.getD_some]
  rw [hfil]

theorem process_core_found (cid : String) (us : Option String)
    (cs : List Contract) (fetch : String → Except String (List Page))
    (now : String) (contract : Contract) (rest : List Contract)
    (hcid : cid ≠ "")
    (hhint : ¬(truthyS us = true ∧ us ≠ some "processing"))
    (hfil : cs.filter (fun c => c.id == cid) = contract :: rest) :
    process_core (some cid) us cs fetch now = process_found contract fetch now := by
  unfold process_core
  rw [if_neg (by simp [truthyS, hcid]), if_neg hhint]
  simp only [Option.getD_some]
  rw [hfil]

theorem process_found_skip (contract : Contract)
    (fetch : String → Except String (List Page)) (now : String)
    (hstat : contract.upload_status ≠ some "processing") :
    process_found contract fetch now =
      ⟨.skippedDb contract.upload_status, false, 0, none⟩ := by
  unfold process_found
  rw [if_pos hstat]

theorem process_found_write_shape (contract : Contract)
    (fetch : String → Except String (List Page)) (now : String) :
    (process_found contract fetch now).write = none ∨
    ∃ t, (process_found contract fetch now).write =
      some ⟨t, "completed", now⟩ := by
  unfold process_found
  repeat' split
  all_goals simp

theorem process_core_write_shape (cid us : Option String) (cs : List Contract)
    (fetch : String → Except String (List Page)) (now : String) :
    (process_core cid us cs fetch now).write = none ∨
    ∃ t, (process_core cid us cs fetch now).write =
      some ⟨t, "completed", now⟩ := by
  unfold process_core
  split
  · simp
  · split
    · simp
    · split
      · simp
      · exact process_found_write_shape _ fetch now

theorem process_found_not_hint (contract : Contract)
    (fetch : String → Except String (List Page)) (now : String) (s : String) :
    (process_found contract fetch now).outcome ≠ Outcome.skippedHint s := by
  unfold process_found
  repeat' split
  all_goals simp

/-- C2: when the id is present, the record is found and its stored
`upload_status` is not `"processing"`, the run is a skip reported as
success: the PDF is not downloaded, OCR is not invoked, and nothing is
written to the store. -/
theorem C2_stored_status_gate (wd : WebhookData) (cs : List Contract)
    (fetch : String → Except String (List Page)) (now : String)
    (cid : String) (us : Option String) (contract : Contract)
    (rest : List Contract)
    (hids : extract_ids wd = (some cid, us)) (hcid : cid ≠ "")
    (hfound : cs.filter (fun c => c.id == cid) = contract :: rest)
    (hstat : contract.upload_status ≠ some "processing") :
    isSkip (process_contract wd cs fetch now).outcome = true ∧
    isSuccess (process_contract wd cs fetch now).outcome = true ∧
    (process_contract wd cs fetch now).downloaded = false ∧
    (process_contract wd cs fetch now).ocrAttempts = 0 ∧
    (process_contract wd cs fetch now).write = none := by
  rw [process_contract_eq_core wd cs fetch now (some cid) us hids]
  by_cases hhint : truthyS us = true ∧ us ≠ some "processing"
  · rw [process_core_skip_hint cid us cs fetch now hcid hhint]
    simp [isSkip, isSuccess]
  · rw [process_core_found cid us cs fetch now contract rest hcid hhint hfound,
      process_found_skip contract fetch now hstat]
    simp [isSkip, isSuccess]

/-- C6: a status hint that is present, non-empty and different from
`"processing"` makes the run a skip before the store is even consulted:
the result is the hint-skip outcome with no download, no OCR and no write,
for every store contents (in particular when the stored status is
`"processing"`). -/
theorem C6_hint_precedence (wd : WebhookData) (cs : List Contract)
    (fetch : String → Except String (List Page)) (now : String)
    (cid s : String)
    (hids : extract_ids wd = (some cid, some s)) (hcid : cid ≠ "")
    (hs1 : s ≠ "") (hs2 : s ≠ "processing") :
    process_contract wd cs fetch now =
      ⟨.skippedHint s, false, 0, none⟩ := by
  rw [process_contract_eq_core wd cs fetch now (some cid) (some s) hids,
    process_core_skip_hint cid (some s) cs fetch now hcid
      ⟨by simp [truthyS, hs1], by simp [hs2]⟩]
  simp only [Option.getD_some]

/-- C7: a trigger whose extracted contract id is absent (or empty, which
Python treats as falsy) yields the bad-request outcome with no effects, for
every store contents (so before any lookup); a present id that matches no
stored record, when the hint does not already skip, yields the not-found
outcome with no effects. -/
theorem C7_bad_request_and_not_found (wd : WebhookData) (cs : List Contract)
    (fetch : String → Except String (List Page)) (now : String)
    (cid us : Option String) (hids : extract_ids wd = (cid, us)) :
    (truthyS cid = false →
      process_contract wd cs fetch now = ⟨.badRequestNoId, false, 0, none⟩) ∧
    (∀ s, cid = some s → s ≠ "" →
      ¬(truthyS us = true ∧ us ≠ some "processing") →
      cs.filter (fun c => c.id == s) = [] →
      process_contract wd cs fetch now = ⟨.notFound, false, 0, none⟩) := by
  constructor
  · intro htr
    rw [process_contract_eq_core wd cs fetch now cid us hids,
      process_core_bad_id cid us cs fetch now htr]
  · intro s hseq hs hna hfil
    subst hseq
    rw [process_contract_eq_core wd cs fetch now (some s) us hids,
      process_core_not_found s us cs fetch now hs hna hfil]

/-- C9: any run of the handler preserves the data-model invariant
(`raw_text` non-null iff `upload_status ∈ {completed, failed}`) on the
contract record: the only write the code performs sets `raw_text` to the
extracted text together with `upload_status = "completed"`. -/
theorem C9_invariant_preserved (wd : WebhookData) (cs : List Contract)
    (fetch : String → Except String (List Page)) (now : String)
    (c : Contract) (h : invariant c) :
    invariant (recordAfter (process_contract wd cs fetch now) c) := by
  unfold process_contract
  rcases process_core_write_shape (extract_ids wd).1 (extract_ids wd).2 cs fetch
      now with hw | ⟨t, hw⟩
  · simpa [recordAfter, hw] using h
  · simp [recordAfter, hw, applyUpdate, invariant]

/-- C10: an empty-string status hint is falsy in Python, so the hint check
does not skip: the run is identical to the same run with no hint at all, and
its outcome is never a hint skip; with a found record whose stored status is
not `"processing"`, it reaches the stored-status check and skips there. -/
theorem C10_empty_hint_absent (wd wd2 : WebhookData) (cs : List Contract)
    (fetch : String → Except String (List Page)) (now : String)
    (cid : Option String)
    (hids : extract_ids wd = (cid, some ""))
    (hids2 : extract_ids wd2 = (cid, none)) :
    process_contract wd cs fetch now = process_contract wd2 cs fetch now ∧
    (∀ s, (process_contract wd cs fetch now).outcome ≠ .skippedHint s) ∧
    (∀ s contract rest, cid = some s → s ≠ "" →
      cs.filter (fun c => c.id == s) = contract :: rest →
      contract.upload_status ≠ some "processing" →
      (process_contract wd cs fetch now).outcome =
        .skippedDb contract.upload_status) := by
  rw [process_contract_eq_core wd cs fetch now cid (some "") hids,
    process_contract_eq_core wd2 cs fetch now cid none hids2]
  refine ⟨?_, ?_, ?_⟩
  · unfold process_core
    rw [if_neg (show ¬(truthyS (some "") = true ∧ some "" ≠ some "processing")
        by simp [truthyS]),
      if_neg (show ¬(truthyS (none : Option String) = true ∧
        (none : Option String) ≠ some "processing") by simp [truthyS])]
  · intro s
    unfold process_core
    split
    · simp
    · split
      · next hh => simp [truthyS] at hh
      · split
        · simp
        · exact process_found_not_hint _ fetch now s
  · intro s contract rest hseq hse hfil hstat
    subst hseq
    rw [process_core_found s (some "") cs fetch now contract rest hse
        (by simp [truthyS]) hfil,
      process_found_skip contract fetch now hstat]

theorem extractPagesR_ok_retry :
    ∀ (L : List RPage) (i : Nat) (t : String), extractPagesR i L = .ok t →
      ∀ p ∈ L, needsOcrR p = true →
        ∃ u, (ocr_with_retry p.attempt).result = .ok u := by
  intro L
  induction L with
  | nil => intro i t _ p hp; cases hp
  | cons q rest ih =>
    intro i t h p hp hc
    by_cases hq : needsOcrR q = true
    · rw [extractPagesR, if_pos hq] at h
      cases hr : (ocr_with_retry q.attempt).result with
      | error e => rw [hr] at h; cases h
      | ok u =>
        rw [hr] at h
        cases hrec : extractPagesR (i + 1) rest with
        | error e => rw [hrec] at h; cases h
        | ok r =>
          rcases List.mem_cons.mp hp with rfl | hmem
          · exact ⟨u, hr⟩
          · exact ih (i + 1) r hrec p hmem hc
    · rw [extractPagesR, if_neg hq] at h
      cases hrec : extractPagesR (i + 1) rest with
      | error e => rw [hrec] at h; cases h
      | ok r =>
        rcases List.mem_cons.mp hp with rfl | hmem
        · exact absurd hc hq
        · exact ih (i + 1) r hrec p hmem hc

/-- C4 (modelled from the spec; `src/app.py` itself has no retry wrapper and
performs a single OCR attempt per page): for every page flagged needs-OCR,
the retry policy makes at most 2 attempts, every inter-attempt delay is the
fixed 1 time unit, and when the final (second) attempt also fails the error
propagates and extraction of any document containing the page fails as a
whole. -/
theorem C4_bounded_retry (p : RPage) (hc : needsOcrR p = true) :
    (ocr_with_retry p.attempt).attempts ≤ 2 ∧
    (∀ d ∈ (ocr_with_retry p.attempt).delays, d = 1) ∧
    (p.attempt 0 = none → p.attempt 1 = none →
      (ocr_with_retry p.attempt).result = .error "OCR failed after 2 attempts" ∧
      ∀ (pre post : List RPage) (i : Nat),
        ∃ e, extractPagesR i (pre ++ p :: post) = .error e) := by
  refine ⟨?_, ?_, ?_⟩
  · cases h0 : p.attempt 0 with
    | some t => simp [ocr_with_retry, h0]
    | none => cases h1 : p.attempt 1 <;> simp [ocr_with_retry, h0, h1]
  · cases h0 : p.attempt 0 with
    | some t => simp [ocr_with_retry, h0]
    | none => cases h1 : p.attempt 1 <;> simp [ocr_with_retry, h0, h1]
  · intro h0 h1
    refine ⟨by simp [ocr_with_retry, h0, h1], ?_⟩
    intro pre post i
    cases hv : extractPagesR i (pre ++ p :: post) with
    | error e => exact ⟨e, rfl⟩
    | ok t =>
      obtain ⟨u, hu⟩ := extractPagesR_ok_retry (pre ++ p :: post) i t hv p
        (List.mem_append_right pre (List.mem_cons_self p post)) hc
      rw [show (ocr_with_retry p.attempt).result =
          .error "OCR failed after 2 attempts" by simp [ocr_with_retry, h0, h1]]
        at hu
      cases hu

theorem C4_bounded_retry_witness :
    (ocr_with_retry c4_page.attempt).attempts ≤ 2 ∧
    (ocr_with_retry c4_page.attempt).delays = [1] ∧
    (ocr_with_retry c4_page.attempt).result =
      .error "OCR failed after 2 attempts" ∧
    extractPagesR 0 [c4_page] = .error "OCR failed after 2 attempts" := by
  have h := C4_bounded_retry c4_page (by decide)
  exact ⟨h.1, rfl, (h.2.2 rfl rfl).1, rfl⟩

theorem chs_nil : chs [] = [] := rfl

theorem chs_one (a : Char) : chs [a] = [a] := rfl

theorem chs_cons2 (a b : Char) (rest : List Char) :
    chs (a :: b :: rest) =
      if hsp a && hsp b then chs (' ' :: rest) else a :: chs (b :: rest) := rfl

theorem chs_ind_aux (motive : List Char → Prop)
    (h1 : motive [])
    (h2 : ∀ a, motive [a])
    (h3 : ∀ a b rest, (hsp a && hsp b) = true →
      motive (' ' :: rest) → motive (a :: b :: rest))
    (h4 : ∀ a b rest, ¬(hsp a && hsp b) = true →
      motive (b :: rest) → motive (a :: b :: rest)) :
    ∀ (n : Nat) (l : List Char), l.length ≤ n → motive l := by
  intro n
  induction n with
  | zero =>
    intro l hl
    have : l = [] := List.eq_nil_of_length_eq_zero (Nat.le_zero.mp hl)
    subst this
    exact h1
  | succ n ihn =>
    intro l hl
    cases l with
    | nil => exact h1
    | cons a rest0 =>
      cases rest0 with
      | nil => exact h2 a
      | cons b rest =>
        by_cases hc : (hsp a && hsp b) = true
        · exact h3 a b rest hc (ihn (' ' :: rest) (by simp at hl ⊢; omega))
        · exact h4 a b rest hc (ihn (b :: rest) (by simp at hl ⊢; omega))

/-- Induction along the recursion structure of `chs`. -/
theorem chs_ind (motive : List Char → Prop)
    (h1 : motive [])
    (h2 : ∀ a, motive [a])
    (h3 : ∀ a b rest, (hsp a && hsp b) = true →
      motive (' ' :: rest) → motive (a :: b :: rest))
    (h4 : ∀ a b rest, ¬(hsp a && hsp b) = true →
      motive (b :: rest) → motive (a :: b :: rest)) :
    ∀ l, motive l :=
  fun l => chs_ind_aux motive h1 h2 h3 h4 l.length l Nat.le.refl

theorem noTriple_cons (a : Char) (m : List Char) :
    noTriple (a :: m) = (ok2 a m && noTriple m) := by
  cases m with
  | nil => rfl
  | cons x m2 =>
    cases m2 with
    | nil => rfl
    | cons y r => rfl

theorem noDouble_cons (a : Char) (m : List Char) :
    noDouble (a :: m) = (okd a m && noDouble m) := by
  cases m with
  | nil => rfl
  | cons x r => rfl

theorem ok2_fst (a : Char) (m : List Char) (h : (a == '\n') = false) :
    ok2 a m = true := by
  cases m with
  | nil => rfl
  | cons x m2 =>
    cases m2 with
    | nil => rfl
    | cons y r => simp [ok2, h]

theorem ok2_snd (a x : Char) (m : List Char) (h : (x == '\n') = false) :
    ok2 a (x :: m) = true := by
  cases m with
  | nil => rfl
  | cons y r => simp [ok2, h]

theorem ok2_thd (a x y : Char) (m : List Char) (h : (y == '\n') = false) :
    ok2 a (x :: y :: m) = true := by simp [ok2, h]

theorem okd_not_hsp (a : Char) (m : List Char) (h : hsp a = false) :
    okd a m = true := by
  cases m with
  | nil => rfl
  | cons x r => simp [okd, h]

theorem okd_snd (a x : Char) (m : List Char) (h : hsp x = false) :
    okd a (x :: m) = true := by simp [okd, h]

theorem noTriple_tail (a : Char) (m : List Char)
    (h : noTriple (a :: m) = true) : noTriple m = true := by
  rw [noTriple_cons, Bool.and_eq_true] at h
  exact h.2

theorem noDouble_tail (a : Char) (m : List Char)
    (h : noDouble (a :: m) = true) : noDouble m = true := by
  rw [noDouble_cons, Bool.and_eq_true] at h
  exact h.2

theorem hsp_ne_nl (a : Char) (h : hsp a = true) : (a == '\n') = false := by
  by_cases h1 : (a == ' ') = true
  · rw [beq_iff_eq.mp h1]; decide
  · have h2 : (a == '\t') = true := by simpa [hsp, h1] using h
    rw [beq_iff_eq.mp h2]; decide

theorem cnl_two : ∀ (rest : List Char) (a b : Char),
    ∃ t, cnl (a :: b :: rest) = a :: b :: t := by
  intro rest
  induction rest with
  | nil => intro a b; exact ⟨[], rfl⟩
  | cons c rest2 ih =>
    intro a b
    by_cases h : (a == '\n' && b == '\n' && c == '\n') = true
    · obtain ⟨t, ht⟩ := ih b c
      obtain ⟨⟨ha, hb⟩, hc⟩ : (a = '\n' ∧ b = '\n') ∧ c = '\n' := by
        simpa [Bool.and_eq_true] using h
      refine ⟨t, ?_⟩
      simp only [cnl]
      rw [if_pos h, ht, ha, hb, hc]
    · obtain ⟨t, ht⟩ := ih b c
      refine ⟨c :: t, ?_⟩
      simp only [cnl]
      rw [if_neg h, ht]

theorem noTriple_cnl : ∀ (l : List Char), noTriple (cnl l) = true := by
  intro l
  induction l using cnl.induct with
  | case1 => rfl
  | case2 a => rfl
  | case3 a b => rfl
  | case4 a b c rest h ih =>
    simp only [cnl]
    rw [if_pos h]
    exact ih
  | case5 a b c rest h ih =>
    simp only [cnl]
    rw [if_neg h]
    obtain ⟨t, ht⟩ := cnl_two rest b c
    rw [noTriple_cons, ht, Bool.and_eq_true]
    constructor
    · have hfalse : (a == '\n' && b == '\n' && c == '\n') = false := by
        cases hv : (a == '\n' && b == '\n' && c == '\n')
        · rfl
        · exact absurd hv h
      simp [ok2, hfalse]
    · rw [← ht]
      exact ih

theorem cnl_id : ∀ (l : List Char), noTriple l = true → cnl l = l := by
  intro l
  induction l using cnl.induct with
  | case1 => intro _; rfl
  | case2 a => intro _; rfl
  | case3 a b => intro _; rfl
  | case4 a b c rest h ih =>
    intro hl
    rw [noTriple_cons, Bool.and_eq_true] at hl
    have h1 : ok2 a (b :: c :: rest) = true := hl.1
    simp only [ok2, h, Bool.not_true] at h1
    exact Bool.noConfusion h1
  | case5 a b c rest h ih =>
    intro hl
    simp only [cnl]
    rw [if_neg h, ih (noTriple_tail a (b :: c :: rest) hl)]

theorem chs_cons_nh (a : Char) (l : List Char) (h : hsp a = false) :
    chs (a :: l) = a :: chs l := by
  cases l with
  | nil => rfl
  | cons b r =>
    rw [chs_cons2, if_neg (by simp [h])]

theorem chs_head_hsp : ∀ (l : List Char), ∀ a m, l = a :: m → hsp a = true →
    ∃ c t, chs l = c :: t ∧ hsp c = true := by
  intro l
  induction l using chs_ind with
  | h1 => intro a m heq _; cases heq
  | h2 x => intro a m heq ha; cases heq; exact ⟨x, [], rfl, ha⟩
  | h3 x y rest h ih =>
    intro a m heq ha
    obtain ⟨c, t, hct, hc⟩ := ih ' ' rest rfl (by decide)
    refine ⟨c, t, ?_, hc⟩
    rw [chs_cons2, if_pos h]
    exact hct
  | h4 x y rest h ih =>
    intro a m heq ha
    cases heq
    refine ⟨x, chs (y :: rest), ?_, ha⟩
    rw [chs_cons2, if_neg h]

theorem noDouble_chs : ∀ (l : List Char), noDouble (chs l) = true := by
  intro l
  induction l using chs_ind with
  | h1 => rfl
  | h2 a => rfl
  | h3 a b rest h ih =>
    rw [chs_cons2, if_pos h]
    exact ih
  | h4 a b rest h ih =>
    rw [chs_cons2, if_neg h, noDouble_cons, Bool.and_eq_true]
    refine ⟨?_, ih⟩
    by_cases ha : hsp a = true
    · have hb : hsp b = false := by
        cases hb2 : hsp b
        · rfl
        · exact absurd (by rw [ha, hb2]; rfl : (hsp a && hsp b) = true) h
      rw [chs_cons_nh b rest hb]
      exact okd_snd a b _ hb
    · exact okd_not_hsp a _ (by simpa using ha)

theorem chs_id : ∀ (l : List Char), noDouble l = true → chs l = l := by
  intro l
  induction l using chs_ind with
  | h1 => intro _; rfl
  | h2 a => intro _; rfl
  | h3 a b rest h ih =>
    intro hl
    rw [noDouble_cons, Bool.and_eq_true] at hl
    have h1 : okd a (b :: rest) = true := hl.1
    simp only [okd, h, Bool.not_true] at h1
    exact Bool.noConfusion h1
  | h4 a b rest h ih =>
    intro hl
    rw [chs_cons2, if_neg h, ih (noDouble_tail a (b :: rest) hl)]

theorem noTriple_chs : ∀ (l : List Char),
    noTriple l = true → noTriple (chs l) = true := by
  intro l
  induction l using chs_ind with
  | h1 => intro _; rfl
  | h2 a => intro _; rfl
  | h3 a b rest h ih =>
    intro hl
    rw [chs_cons2, if_pos h]
    apply ih
    have hrest : noTriple rest = true :=
      noTriple_tail b rest (noTriple_tail a (b :: rest) hl)
    rw [noTriple_cons, Bool.and_eq_true]
    exact ⟨ok2_fst ' ' rest (by decide), hrest⟩
  | h4 a b rest h ih =>
    intro hl
    rw [chs_cons2, if_neg h, noTriple_cons, Bool.and_eq_true]
    have htl : noTriple (b :: rest) = true := noTriple_tail a (b :: rest) hl
    refine ⟨?_, ih htl⟩
    by_cases hanl : (a == '\n') = true
    · by_cases hbnl : (b == '\n') = true
      · have hbh : hsp b = false := by
          rw [beq_iff_eq.mp hbnl]
          decide
        rw [chs_cons_nh b rest hbh]
        cases rest with
        | nil => rfl
        | cons r0 rr =>
          have hr0 : (r0 == '\n') = false := by
            rw [noTriple_cons, Bool.and_eq_true] at hl
            have h1 : ok2 a (b :: r0 :: rr) = true := hl.1
            simpa [ok2, hanl, hbnl] using h1
          by_cases hr0h : hsp r0 = true
          · obtain ⟨c, t, hct, hc⟩ := chs_head_hsp (r0 :: rr) r0 rr rfl hr0h
            rw [hct]
            exact ok2_thd a b c t (hsp_ne_nl c hc)
          · rw [chs_cons_nh r0 rr (by simpa using hr0h)]
            exact ok2_thd a b r0 _ hr0
      · by_cases hbh : hsp b = true
        · obtain ⟨c, t, hct, hc⟩ := chs_head_hsp (b :: rest) b rest rfl hbh
          rw [hct]
          exact ok2_snd a c t (hsp_ne_nl c hc)
        · rw [chs_cons_nh b rest (by simpa using hbh)]
          exact ok2_snd a b _ (by simpa using hbnl)
    · exact ok2_fst a _ (by simpa using hanl)

theorem normalize_ws_noTriple (l : List Char) :
    noTriple (normalize_ws l) = true :=
  noTriple_chs (cnl l) (noTriple_cnl l)

theorem normalize_ws_noDouble (l : List Char) :
    noDouble (normalize_ws l) = true :=
  noDouble_chs (cnl l)

theorem normalize_ws_idem (l : List Char) :
    normalize_ws (normalize_ws l) = normalize_ws l := by
  unfold normalize_ws
  rw [cnl_id (chs (cnl l)) (noTriple_chs (cnl l) (noTriple_cnl l)),
    chs_id (chs (cnl l)) (noDouble_chs (cnl l))]

/-- C8 (modelled from the spec; the TextNormalizer is not in `src/app.py`,
it belongs to the repository's second variant not under `src/`): the final
artifact is in normalized form — no run of 3 or more newlines and no run of
2 or more horizontal whitespace characters remains — and normalization is
idempotent on it: normalizing the artifact a second time returns it
unchanged. -/
theorem C8_normalized_idempotent (doc : Except String (List Page)) (t : String)
    (h : final_artifact doc = .ok t) :
    noTriple t.data = true ∧ noDouble t.data = true ∧
    normalize_text t = t := by
  unfold final_artifact at h
  cases hx : extract_text_from_pdf doc with
  | error e => rw [hx] at h; cases h
  | ok raw =>
    rw [hx] at h
    cases h
    refine ⟨normalize_ws_noTriple raw.data, normalize_ws_noDouble raw.data, ?_⟩
    unfold normalize_text
    exact congrArg String.mk (normalize_ws_idem raw.data)

theorem C8_normalized_idempotent_witness :
    noTriple c8_t.data = true ∧ noDouble c8_t.data = true ∧
    normalize_text c8_t = c8_t :=
  C8_normalized_idempotent c8_doc c8_t (by rfl)

/-- C3: on an admitted run whose extraction fails (here: download failure),
the code surfaces the error to the caller but performs NO store write: the
contract is not set to `upload_status = "failed"`, no diagnostic is written
to `raw_text`, `processed_at` is not stamped, and the record keeps its prior
state (stuck in `"processing"`). -/
theorem C3_extraction_failure_writes_nothing :
    (process_contract c3_wd c3_contracts c3_fetch "t0").outcome =
      Outcome.error "download failed" ∧
    (process_contract c3_wd c3_contracts c3_fetch "t0").write = none ∧
    (recordAfter (process_contract c3_wd c3_contracts c3_fetch "t0")
        (c3_contracts.get ⟨0, by decide⟩)).upload_status = some "processing" :=
  ⟨rfl, rfl, rfl⟩

theorem C1_ocr_threshold_witness :
    pageOcrAttempts (c1_pages.get ⟨1, by decide⟩) = 1 ∧
    concatBlocks 0 c1_pages =
      ("\n--- Page 1 ---\naaaaaaaaaaaaaaaaaaaaaaaaaaaaaaaaaaaaaaaaaaaaaaaaaa" ++
        "\n--- Page 2 (OCR) ---\n") ++ "OCRTEXT" ++ "" := by
  have h := (C1_ocr_threshold c1_pages (concatBlocks 0 c1_pages) rfl 1
    (by decide)).1 (by decide)
  exact ⟨h.1, by rfl⟩

theorem C2_stored_status_gate_witness :
    isSkip (process_contract c2_wd [c2_contract] c2_fetch "t0").outcome = true ∧
    isSuccess (process_contract c2_wd [c2_contract] c2_fetch "t0").outcome = true ∧
    (process_contract c2_wd [c2_contract] c2_fetch "t0").downloaded = false ∧
    (process_contract c2_wd [c2_contract] c2_fetch "t0").ocrAttempts = 0 ∧
    (process_contract c2_wd [c2_contract] c2_fetch "t0").write = none :=
  C2_stored_status_gate c2_wd [c2_contract] c2_fetch "t0" "c1" none c2_contract []
    rfl (by decide) rfl (by decide)

theorem C5_ascending_order_witness :
    ("\n--- Page 1 (OCR) ---\nOCR1\n--- Page 2 ---\n" ++
      "bbbbbbbbbbbbbbbbbbbbbbbbbbbbbbbbbbbbbbbbbbbbbbbbbb") =
      concatBlocks 0 c5_pages :=
  C5_ascending_order c5_pages _ rfl

theorem C6_hint_precedence_witness :
    process_contract c6_wd [c6_contract] c6_fetch "t0" =
      ⟨.skippedHint "completed", false, 0, none⟩ :=
  C6_hint_precedence c6_wd [c6_contract] c6_fetch "t0" "k1" "completed" rfl
    (by decide) (by decide) (by decide)

theorem C7_bad_request_and_not_found_witness :
    process_contract c7_wd_noid [] c7_fetch "t0" =
      ⟨.badRequestNoId, false, 0, none⟩ ∧
    process_contract c7_wd_unknown [] c7_fetch "t0" =
      ⟨.notFound, false, 0, none⟩ :=
  ⟨(C7_bad_request_and_not_found c7_wd_noid [] c7_fetch "t0" none none rfl).1 rfl,
   (C7_bad_request_and_not_found c7_wd_unknown [] c7_fetch "t0" (some "z1") none
      rfl).2 "z1" rfl (by decide) (by simp [truthyS]) rfl⟩

theorem C9_invariant_preserved_witness :
    invariant (recordAfter (process_contract c9_wd [c9_contract] c9_fetch "t0")
      c9_contract) :=
  C9_invariant_preserved c9_wd [c9_contract] c9_fetch "t0" c9_contract
    (by simp [invariant, c9_contract])

theorem C10_empty_hint_absent_witness :
    process_contract c10_wd [c10_contract] c10_fetch "t0" =
      process_contract c10_wd2 [c10_contract] c10_fetch "t0" ∧
    (process_contract c10_wd [c10_contract] c10_fetch "t0").outcome =
      .skippedDb (some "done") := by
  have h := C10_empty_hint_absent c10_wd c10_wd2 [c10_contract] c10_fetch "t0"
    (some "m1") rfl rfl
  exact ⟨h.1, h.2.2 "m1" c10_contract [] rfl (by decide) rfl (by decide)⟩

end App
